import Mathlib

/-!
Verification development for the product-mix analysis pipeline
(`src/app.py`).  The pandas / Streamlit program is shallowly embedded:

* cell values are `Scalar` (null / string / exact rational number —
  floats are modelled as exact rationals, which is faithful for every
  value the claims exercise);
* Python string operations (`lower`, `strip`, `replace`, `in`,
  `str(...)` on cells) are re-implemented character-wise (ASCII, which
  covers all alias lists and claim inputs);
* the whole pipeline (lines 279–372 of `src/app.py`) is the function
  `runPipeline`, a composition of one definition per source stage;
* fallible behaviour (the missing `order_id` abort at line 284, and the
  pandas `KeyError` raised by the `'date': 'min'` aggregation at line
  345 when no date column was resolved) is an `Except` error value.
-/

namespace ProductMix

/-- A cell of the decoded table: missing value (NaN/None), a string, or a
number.  Numbers are exact rationals standing for Python floats; all
numeric values appearing in the claims are exactly representable. -/
inductive Scalar where
  | null : Scalar
  | str : String → Scalar
  | num : ℚ → Scalar
deriving DecidableEq

/-! ### Python string primitives (character-wise, ASCII) -/

/-- Python `s.lower()` (ASCII range, as in every alias list and input
used here). -/
def pyLower (s : String) : String :=
  (s.toList.map Char.toLower).asString

/-- Python `s.upper()` (ASCII range). -/
def pyUpper (s : String) : String :=
  (s.toList.map Char.toUpper).asString

/-- Python `s.strip()`: remove leading and trailing whitespace. -/
def pyTrim (s : String) : String :=
  (((s.toList.dropWhile Char.isWhitespace).reverse.dropWhile Char.isWhitespace).reverse).asString

/-- Python `s.replace(a, b)` for single characters `a`, `b`. -/
def replaceChar (a b : Char) (s : String) : String :=
  (s.toList.map (fun c => if c = a then b else c)).asString

/-- Python `s.replace(a, '')` for a single character `a`. -/
def removeChar (a : Char) (s : String) : String :=
  (s.toList.filter (fun c => !(c = a : Bool))).asString

/-- Python `c in s` for a single character. -/
def containsChar (s : String) (c : Char) : Bool :=
  s.toList.contains c

/-- Boolean prefix test on character lists. -/
def isPrefixB : List Char → List Char → Bool
  | [], _ => true
  | _ :: _, [] => false
  | a :: as, b :: bs => a = b && isPrefixB as bs

/-- Boolean infix test on character lists (`pat` occurs inside `hay`). -/
def isInfixB (pat : List Char) : List Char → Bool
  | [] => pat.isEmpty
  | c :: rest => isPrefixB pat (c :: rest) || isInfixB pat rest

/-- Python substring containment `pat in hay`.  The source uses pandas
`.str.contains(pat, na=False)`, whose pattern is a regular expression;
for metacharacter-free patterns (all patterns appearing in the claims)
it is plain substring search, which is what we model. -/
def strContainsSub (hay pat : String) : Bool :=
  isInfixB pat.toList hay.toList

/-- Python `str(cell)` as applied by `astype(str)` / `str(...)` in the
source: a missing value (float NaN) stringifies to `"nan"`; integral
numbers render like Python ints.  (Non-integral numbers are rendered
`num/den`, an approximation of Python float repr never exercised by the
claims.) -/
def Scalar.pyStr : Scalar → String
  | .null => "nan"
  | .str s => s
  | .num q => if q.den = 1 then toString q.num else toString q.num ++ "/" ++ toString q.den

/-! ### Python `float(...)` on plain decimal literals -/

/-- Numeric value of a digit list (most significant first). -/
def digitsVal (l : List Char) : ℕ :=
  l.foldl (fun n c => 10 * n + (c.toNat - 48)) 0

/-- Model of Python `float(s)` restricted to plain decimal literals
`[+|-] digits [. digits] [(e|E) [+|-] digits]` with optional surrounding
whitespace, returning an exact rational.  (Python additionally accepts
`inf`/`nan` words and underscore separators, which no claim input
uses.)  Returns `none` exactly when Python raises `ValueError`. -/
def parseFloatQ (s : String) : Option ℚ :=
  let l := (s.toList.dropWhile Char.isWhitespace).reverse.dropWhile Char.isWhitespace |>.reverse
  let sgnRest : ℚ × List Char :=
    match l with
    | '+' :: r => (1, r)
    | '-' :: r => (-1, r)
    | _ => (1, l)
  let sgn := sgnRest.1
  let l1 := sgnRest.2
  let intDigits := l1.takeWhile Char.isDigit
  let rest1 := l1.dropWhile Char.isDigit
  let fracRest : Option (List Char × List Char) :=
    match rest1 with
    | '.' :: r => some (r.takeWhile Char.isDigit, r.dropWhile Char.isDigit)
    | _ => some ([], rest1)
  match fracRest with
  | none => none
  | some (fracDigits, rest2) =>
    if intDigits.isEmpty && fracDigits.isEmpty then none
    else if !(intDigits.all Char.isDigit) then none
    else
      let mantissa : ℚ :=
        (digitsVal intDigits : ℚ) + (digitsVal fracDigits : ℚ) / ((10 : ℚ) ^ fracDigits.length)
      match rest2 with
      | [] =>
        -- a bare dot with no digits at all was rejected above
        some (sgn * mantissa)
      | e :: r3 =>
        if e = 'e' || e = 'E' then
          let esgnRest : Bool × List Char :=
            match r3 with
            | '+' :: r => (false, r)
            | '-' :: r => (true, r)
            | _ => (false, r3)
          let eDigits := esgnRest.2
          if eDigits.isEmpty || !(eDigits.all Char.isDigit) then none
          else
            let ev : ℚ := (10 : ℚ) ^ (digitsVal eDigits)
            some (sgn * mantissa * (if esgnRest.1 then 1 / ev else ev))
        else none

/-- `parse_money` (src/app.py lines 107–112): null/NaN maps to `0.0`;
otherwise stringify, strip `,` and `$`, trim; if both `(` and `)` occur,
strip them and prefix `-`; parse as float, any failure yielding `0.0`. -/
def parse_money (val : Scalar) : ℚ :=
  match val with
  | .null => 0
  | v =>
    let s := pyTrim (removeChar '$' (removeChar ',' (Scalar.pyStr v)))
    let s2 := if containsChar s '(' && containsChar s ')'
              then "-" ++ removeChar ')' (removeChar '(' s)
              else s
    (parseFloatQ s2).getD 0

/-! ### Header resolution (src/app.py lines 91–105) -/

/-- `normalize_header` (src/app.py lines 91–92):
`str(h).lower().replace('_',' ').replace('-',' ').strip()`. -/
def normalize_header (h : String) : String :=
  pyTrim (replaceChar '-' ' ' (replaceChar '_' ' ' (pyLower h)))

/-- Association-list model of a Python `dict` from strings to strings. -/
abbrev Dict := List (String × String)

/-- Python `d[k] = v`: overwrite in place if the key exists (keeping its
position), else append. -/
def dictInsert (d : Dict) (k v : String) : Dict :=
  if d.any (fun p => p.1 = k) then
    d.map (fun p => if p.1 = k then (k, v) else p)
  else d ++ [(k, v)]

/-- Python `d.get(k)` / the `k in d` + `d[k]` pattern. -/
def dictFind (d : Dict) (k : String) : Option String :=
  (d.find? (fun p => p.1 = k)).map Prod.snd

/-- Python dict comprehension over `cols` keyed by `f col` (later columns
overwrite earlier ones, as in `{col.lower(): col for col in df_cols}`). -/
def buildDict (f : String → String) (cols : List String) : Dict :=
  cols.foldl (fun d c => dictInsert d (f c) c) []

/-- `find_column` (src/app.py lines 94–105), translated clause by
clause: stage 1 returns the first candidate that occurs verbatim among
the columns; stage 2 builds the `lower_cols` dict and returns its entry
for the first candidate whose lower-casing is a key; stage 3 builds the
`norm_cols` dict and scans its items for the first candidate whose
normalization matches a key (an item scan over a dict is exactly a
first-match key lookup). -/
def find_column (df_cols candidates : List String) : Option String :=
  match candidates.find? (fun c => df_cols.contains c) with
  | some c => some c
  | none =>
    let lower_cols := buildDict pyLower df_cols
    match candidates.find? (fun c => (dictFind lower_cols (pyLower c)).isSome) with
    | some c => dictFind lower_cols (pyLower c)
    | none =>
      let norm_cols := buildDict normalize_header df_cols
      match candidates.find? (fun c => (dictFind norm_cols (normalize_header c)).isSome) with
      | some c => dictFind norm_cols (normalize_header c)
      | none => none

/-! #### The resolver as the spec words it (for claim C2)

Spec §4.1: strict stage order — (1) exact match, (2) case-insensitive
exact match, (3) normalized match — and within the current stage the
first alias in the caller-supplied priority order wins; stages are not
mixed.  The spec leaves open which column is returned when several
columns tie under one alias; we fix the choice implied by the code's
dictionaries (the last such column in dataset order), since the claim
constrains only stage order and alias priority. -/

/-- Stage-1 matcher: exact string match. -/
def matchExactB (col cand : String) : Bool := col = cand

/-- Stage-2 matcher: case-insensitive exact match. -/
def matchCIB (col cand : String) : Bool := pyLower col = pyLower cand

/-- Stage-3 matcher: equality after `normalize_header` normalization. -/
def matchNormB (col cand : String) : Bool := normalize_header col = normalize_header cand

/-- Last column (in dataset order) satisfying a predicate. -/
def pickLast (p : String → Bool) (cols : List String) : Option String :=
  cols.foldl (fun acc c => if p c then some c else acc) none

/-- One resolution stage: the first alias, in priority order, that
matches some column under this stage's matcher wins and the matching
column is returned. -/
def stage_pick (mtch : String → String → Bool) (cols cands : List String) : Option String :=
  match cands.find? (fun c => cols.any (fun col => mtch col c)) with
  | some c => pickLast (fun col => mtch col c) cols
  | none => none

/-- The header resolver exactly as the spec words it: stage 1 exhausts
every alias before stage 2 begins, and stage 2 before stage 3. -/
def specResolve (cols cands : List String) : Option String :=
  match stage_pick matchExactB cols cands with
  | some r => some r
  | none =>
    match stage_pick matchCIB cols cands with
    | some r => some r
    | none => stage_pick matchNormB cols cands

/-! ### Canonical column candidates (src/app.py lines 76–88) -/

/-- Aliases for `order_id`. -/
def order_id_candidates : List String :=
  ["order id", "name", "order", "order number", "order_id"]

/-- Aliases for `customer_id`. -/
def customer_id_candidates : List String :=
  ["customer id", "customer_id", "customer"]

/-- Aliases for `email`. -/
def email_candidates : List String :=
  ["customer email", "email", "customer_email", "billing_email"]

/-- Aliases for `date`. -/
def date_candidates : List String :=
  ["created at", "created_at", "processed at", "order date", "day", "date", "hour", "time"]

/-- Aliases for `product_title`. -/
def product_title_candidates : List String :=
  ["product title", "lineitem name", "title", "product name", "line_item_name"]

/-- Aliases for `variant_title`. -/
def variant_title_candidates : List String :=
  ["product variant title", "variant title", "variant", "lineitem variant", "line_item_variation", "option"]

/-- Aliases for `sku`. -/
def sku_candidates : List String :=
  ["product variant sku", "variant sku", "sku", "lineitem sku", "line_item_sku"]

/-- Aliases for `net_sales`. -/
def net_sales_candidates : List String :=
  ["net sales", "total sales", "total price", "net_total", "net revenue"]

/-- Aliases for `quantity`. -/
def quantity_candidates : List String :=
  ["lineitem quantity", "quantity", "qty", "count"]

/-- Aliases for `financial_status`. -/
def financial_status_candidates : List String :=
  ["order payment status", "financial status", "payment status", "order_status"]

/-- Aliases for `canceled`. -/
def canceled_candidates : List String :=
  ["is canceled order", "cancelled", "canceled", "is_canceled", "is_cancelled"]

/-- `INCLUDE_PAYMENT_STATUSES` (src/app.py line 75). -/
def INCLUDE_PAYMENT_STATUSES : List String := ["paid", "partially_paid"]

/-! ### Data model -/

/-- A raw input row: column name / cell value pairs, as decoded by the
external CSV/Excel loader. -/
abbrev RawRow := List (String × Scalar)

/-- The `col_map` of src/app.py lines 279–282: which actual column (if
any) each canonical field resolved to. -/
structure ColMap where
  order_id : Option String
  customer_id : Option String
  email : Option String
  date : Option String
  product_title : Option String
  variant_title : Option String
  sku : Option String
  net_sales : Option String
  quantity : Option String
  financial_status : Option String
  canceled : Option String
deriving DecidableEq

/-- Run `find_column` once per canonical field, as the loop over
`COL_CANDIDATES.items()` does. -/
def resolve_columns (cols : List String) : ColMap where
  order_id := find_column cols order_id_candidates
  customer_id := find_column cols customer_id_candidates
  email := find_column cols email_candidates
  date := find_column cols date_candidates
  product_title := find_column cols product_title_candidates
  variant_title := find_column cols variant_title_candidates
  sku := find_column cols sku_candidates
  net_sales := find_column cols net_sales_candidates
  quantity := find_column cols quantity_candidates
  financial_status := find_column cols financial_status_candidates
  canceled := find_column cols canceled_candidates

/-- A row after the `df.rename` of line 288: each canonical field holds
the resolved column's cell (or null when the field resolved to no
column — such fields are only read behind presence checks, except for
`date`, whose absence the aggregation turns into an error; see
`runPipeline`).  `identifier` and `final_cust_id` are the derived
columns added at lines 326 and 343.  Unresolved original columns are
never read downstream and are not modelled. -/
structure CanonRow where
  order_id : Scalar := .null
  customer_id : Scalar := .null
  email : Scalar := .null
  date : Scalar := .null
  product_title : Scalar := .null
  variant_title : Scalar := .null
  sku : Scalar := .null
  net_sales : Scalar := .null
  quantity : Scalar := .null
  financial_status : Scalar := .null
  canceled : Scalar := .null
  identifier : String := ""
  final_cust_id : Scalar := .null
deriving DecidableEq

/-- Cell of a raw row under a resolved column (missing column ⇒ null). -/
def rawGet (r : RawRow) (c : Option String) : Scalar :=
  match c with
  | none => .null
  | some col => ((r.find? (fun p => p.1 = col)).map Prod.snd).getD .null

/-- Build the renamed (canonical) row from a raw row. -/
def mkCanonRow (cm : ColMap) (r : RawRow) : CanonRow where
  order_id := rawGet r cm.order_id
  customer_id := rawGet r cm.customer_id
  email := rawGet r cm.email
  date := rawGet r cm.date
  product_title := rawGet r cm.product_title
  variant_title := rawGet r cm.variant_title
  sku := rawGet r cm.sku
  net_sales := rawGet r cm.net_sales
  quantity := rawGet r cm.quantity
  financial_status := rawGet r cm.financial_status
  canceled := rawGet r cm.canceled

/-! ### Row filters and per-row transforms (src/app.py lines 290–327) -/

/-- Cancellation filter (lines 290–292): when the `canceled` column was
resolved, drop rows whose lower-cased stringification is one of
`true`, `yes`, `1`, `t`, `y`. -/
def canceled_filter (present : Bool) (rows : List CanonRow) : List CanonRow :=
  if present then
    rows.filter (fun r =>
      !(["true", "yes", "1", "t", "y"].contains (pyLower (Scalar.pyStr r.canceled))))
  else rows

/-- The line-294 write-back: `df['financial_status'] =
df['financial_status'].astype(str).str.lower()`. -/
def statusLower (r : CanonRow) : CanonRow :=
  { r with financial_status := .str (pyLower (Scalar.pyStr r.financial_status)) }

/-- The line-295 keep predicate: `df['financial_status'].isin(INCLUDE_PAYMENT_STATUSES)`. -/
def statusKeepB (r : CanonRow) : Bool :=
  (INCLUDE_PAYMENT_STATUSES.map Scalar.str).contains r.financial_status

/-- Payment-status filter (lines 293–295): when the column was resolved,
lower-case it in place and keep only the allow-listed statuses
(`INCLUDE_PAYMENT_STATUSES` is a non-empty constant, so the `if` guard
on it always passes). -/
def payment_filter (present : Bool) (rows : List CanonRow) : List CanonRow :=
  if present then (rows.map statusLower).filter statusKeepB else rows

/-- Lines 297–298: parse the money column, or default the whole column
to `0.0` when it was never resolved. -/
def net_sales_stage (present : Bool) (rows : List CanonRow) : List CanonRow :=
  if present then rows.map (fun r => { r with net_sales := .num (parse_money r.net_sales) })
  else rows.map (fun r => { r with net_sales := .num 0 })

/-- Truncation toward zero, as `astype(int)` does. -/
def ratTrunc (q : ℚ) : ℤ := if q < 0 then ⌈q⌉ else ⌊q⌋

/-- `pd.to_numeric(..., errors='coerce').fillna(1).astype(int)` on one
cell (line 301): numbers are truncated to ints, numeric strings are
parsed then truncated, anything unparseable or missing becomes 1. -/
def toQuantity (s : Scalar) : ℤ :=
  match s with
  | .null => 1
  | .num q => ratTrunc q
  | .str t => match parseFloatQ t with
    | some q => ratTrunc q
    | none => 1

/-- Lines 300–302: coerce the quantity column, or default it to 1. -/
def quantity_stage (present : Bool) (rows : List CanonRow) : List CanonRow :=
  if present then rows.map (fun r => { r with quantity := .num ((toQuantity r.quantity : ℤ) : ℚ) })
  else rows.map (fun r => { r with quantity := .num 1 })

/-- SKU ignore filter (line 304): when the `sku` column was resolved and
the ignore set is non-empty, drop rows whose upper-cased stringified SKU
is in the set. -/
def sku_filter (present : Bool) (ignore_skus : List String) (rows : List CanonRow) : List CanonRow :=
  if present && !ignore_skus.isEmpty then
    rows.filter (fun r => !(ignore_skus.contains (pyUpper (Scalar.pyStr r.sku))))
  else rows

/-- Title-contains ignore filter (lines 305–306): when the
`product_title` column was resolved and the list is non-empty, apply one
filter per ignore entry, dropping rows whose lower-cased *stringified*
title contains the entry.  Note that `astype(str)` turns a missing
title into the literal string `"nan"` before `.str.contains(...,
na=False)` can see any NA, so the `na=False` guard is inert. -/
def title_filter (present : Bool) (ignore_titles : List String) (rows : List CanonRow) : List CanonRow :=
  if present && !ignore_titles.isEmpty then
    ignore_titles.foldl
      (fun acc t => acc.filter (fun r => !(strContainsSub (pyLower (Scalar.pyStr r.product_title)) t)))
      rows
  else rows

/-- The composite string of lines 308–310:
`"<product_title> (<variant_title>)"`, the variant part being the empty
string when the `variant_title` column was never resolved. -/
def comboString (presentVariant : Bool) (r : CanonRow) : String :=
  Scalar.pyStr r.product_title ++ " (" ++ (if presentVariant then Scalar.pyStr r.variant_title else "") ++ ")"

/-- Variant-combo-contains ignore filter (lines 307–311). -/
def combo_filter (presentTitle presentVariant : Bool) (ignore_vars : List String)
    (rows : List CanonRow) : List CanonRow :=
  if presentTitle && !ignore_vars.isEmpty then
    ignore_vars.foldl
      (fun acc t => acc.filter (fun r => !(strContainsSub (pyLower (comboString presentVariant r)) t)))
      rows
  else rows

/-! ### Identifier derivation (src/app.py lines 313–327) -/

/-- Identifier mode selected in the sidebar. -/
inductive IdMode where
  | sku
  | productVariant
  | productName
deriving DecidableEq

/-- The settings object threaded into the pipeline. -/
structure AppSettings where
  id_mode : IdMode
  use_quantity : Bool
  ignore_skus : List String
  ignore_titles : List String
  ignore_vars : List String
deriving DecidableEq

/-- The common normalization of lines 314–319:
`str(row.get(field, '')).strip()`, with a literal `'nan'` reset to the
empty string.  When the column was never resolved, `row.get` yields the
default `''`. -/
def normField (present : Bool) (v : Scalar) : String :=
  if present then
    let t := pyTrim (Scalar.pyStr v)
    if t = "nan" then "" else t
  else ""

/-- Numeric value of the (post-`quantity_stage`) quantity cell. -/
def rowQty (r : CanonRow) : ℚ :=
  match r.quantity with
  | .num q => q
  | _ => 0

/-- `get_identifier` (lines 313–324): base identifier by mode (Python
string truthiness = non-emptiness), then the `"<quantity>x "` prefix
when the quantity option is on and quantity exceeds 1. -/
def get_identifier (hasT hasV hasS : Bool) (st : AppSettings) (r : CanonRow) : String :=
  let p := normField hasT r.product_title
  let v := normField hasV r.variant_title
  let s := normField hasS r.sku
  let base :=
    match st.id_mode with
    | .sku => if s = "" then p else s
    | .productVariant => if v = "" then p else p ++ " (" ++ v ++ ")"
    | .productName => p
  if st.use_quantity && rowQty r > 1 then Scalar.pyStr r.quantity ++ "x " ++ base else base

/-- Lines 326–327: add the identifier column, then drop rows whose
identifier is `''` or `'nan'`. -/
def ident_stage (hasT hasV hasS : Bool) (st : AppSettings) (rows : List CanonRow) : List CanonRow :=
  (rows.map (fun r => { r with identifier := get_identifier hasT hasV hasS st r })).filter
    (fun r => !(r.identifier = "" : Bool) && !(r.identifier = "nan" : Bool))

/-! ### Date parsing and customer key (src/app.py lines 329–343) -/

/-- Modelled from the spec: `pd.to_datetime(..., utc=True,
errors='coerce')` is external library behaviour (spec §3: "parsed to
UTC; invalid→null").  Timestamps are modelled as rational time values
that pass through unchanged; missing values and values our model cannot
parse coerce to null.  Every claim input uses numeric or null dates, on
which this is faithful. -/
def to_datetime : Scalar → Scalar
  | .num q => .num q
  | _ => .null

/-- Line 331–332: convert the date column when it was resolved.  (The
min/max taken for the file-name suffix are presentation-only and not
modelled.) -/
def date_stage (present : Bool) (rows : List CanonRow) : List CanonRow :=
  if present then rows.map (fun r => { r with date := to_datetime r.date }) else rows

/-- Lines 341–343: default missing customer columns, then
`final_cust_id = customer_id.fillna(email).fillna('(unknown)')`.
Unresolved columns already hold null in every row, so only the fillna
chain is left to model. -/
def cust_stage (rows : List CanonRow) : List CanonRow :=
  rows.map (fun r =>
    { r with final_cust_id :=
        if r.customer_id ≠ .null then r.customer_id
        else if r.email ≠ .null then r.email
        else .str "(unknown)" })

/-! ### Sorting, dedup and grouping primitives -/

/-- Insert into a sorted list, keeping elements for which `le` already
holds in front (stable insertion). -/
def insertLe (le : α → α → Bool) (a : α) : List α → List α
  | [] => [a]
  | b :: l => if le a b then a :: b :: l else b :: insertLe le a l

/-- Stable insertion sort with a Boolean comparison, modelling Python
`sorted` / pandas `sort_values`.  (pandas' default quicksort is
unstable; no claim depends on the order of ties, and every property
proved below holds for any correct sort.) -/
def sortLe (le : α → α → Bool) (l : List α) : List α :=
  l.foldr (insertLe le) []

/-- Lexicographic code-point comparison of character lists, as Python
compares strings. -/
def lexLeChars : List Char → List Char → Bool
  | [], _ => true
  | _ :: _, [] => false
  | a :: as, b :: bs => if a < b then true else if b < a then false else lexLeChars as bs

/-- Python string `<=`. -/
def strLeB (a b : String) : Bool := lexLeChars a.toList b.toList

/-- Deduplication producing the distinct values of a list (Python
`set(...)`: which duplicate survives is unobservable once sorted). -/
def dedupL [DecidableEq α] : List α → List α
  | [] => []
  | a :: l => if a ∈ l then dedupL l else a :: dedupL l

/-- Distinct values in first-occurrence order: the group keys a
dict-backed groupby produces.  (pandas additionally sorts group keys for
presentation; no claim concerns the ordering of output rows across
groups.) -/
def firstOccurAux [DecidableEq α] : List α → List α → List α
  | [], _ => []
  | a :: l, seen => if a ∈ seen then firstOccurAux l seen else a :: firstOccurAux l (a :: seen)

/-- Distinct values of a list in first-occurrence order. -/
def firstOccur [DecidableEq α] (l : List α) : List α := firstOccurAux l []

/-- `drop_duplicates(subset=[key], keep='first')`: keep the first row
bearing each key. -/
def dropDupsBy [DecidableEq κ] (key : α → κ) : List α → List κ → List α
  | [], _ => []
  | a :: l, seen =>
    if key a ∈ seen then dropDupsBy key l seen
    else a :: dropDupsBy key l (key a :: seen)

/-- Join with a separator (Python `' + '.join`). -/
def joinSep (sep : String) : List String → String
  | [] => ""
  | [a] => a
  | a :: l => a ++ sep ++ joinSep sep l

/-! ### Order aggregation (src/app.py lines 345–357) -/

/-- One row of the order-level table `order_groups`. -/
structure OrderRow where
  order_id : Scalar
  identifiers : List String
  net_sales : ℚ
  final_cust_id : Scalar
  date : Scalar
  product_mix : String
deriving DecidableEq

/-- Numeric value of a (post-`net_sales_stage`) money cell. -/
def scalarQ : Scalar → ℚ
  | .num q => q
  | _ => 0

/-- The `'date': 'min'` aggregation: minimum over the non-null
timestamps of the group, null when all are null (pandas `min` skips
NaT). -/
def dateMin (ds : List Scalar) : Scalar :=
  match ds.filterMap (fun s => match s with | .num q => some q | _ => none) with
  | [] => .null
  | q :: qs => .num (qs.foldl min q)

/-- The distinct identifiers of an order, sorted ascending —
`sorted(list(set(items)))` of `create_mix_string` (line 353). -/
def mix_members (items : List String) : List String :=
  sortLe strLeB (dedupL items)

/-- `create_mix_string` (lines 352–354): distinct identifiers, sorted,
joined with `" + "`. -/
def create_mix_string (items : List String) : String :=
  joinSep " + " (mix_members items)

/-- One group of the line-345 aggregation: identifiers collected as
`sorted(list(x))`, net sales summed, customer key from the first row of
the group, date as the non-null minimum, and the line-356 `product_mix`
column. -/
def agg_group (k : Scalar) (rs : List CanonRow) : OrderRow :=
  let ids := sortLe strLeB (rs.map (fun r => r.identifier))
  { order_id := k
    identifiers := ids
    net_sales := (rs.map (fun r => scalarQ r.net_sales)).sum
    final_cust_id := ((rs.head?).map (fun r => r.final_cust_id)).getD .null
    date := dateMin (rs.map (fun r => r.date))
    product_mix := create_mix_string ids }

/-- `order_groups` (lines 345–357): group the surviving rows by
`order_id` (pandas drops null group keys), aggregate each group, then
drop orders whose `product_mix` is empty (line 357). -/
def order_groups_of (rows : List CanonRow) : List OrderRow :=
  ((firstOccur ((rows.map (fun r => r.order_id)).filter (fun s => !(s = Scalar.null : Bool)))).map
    (fun k => agg_group k (rows.filter (fun r => (r.order_id = k : Bool))))).filter
    (fun g => !(g.product_mix = "" : Bool))

/-! ### Mix aggregation (src/app.py lines 359–368) -/

/-- Extended float: the values a pandas float column can hold once IEEE
division is involved.  Finite values are exact rationals (float rounding
is immaterial to every claim, which only concern zero / non-zero /
special values). -/
inductive EFloat where
  | fin (q : ℚ)
  | inf
  | neginf
  | nan
deriving DecidableEq

/-- IEEE-style division as numpy performs it on the share columns:
division never raises; `0/0` is NaN and `±x/0` is `±inf`.  (The pipeline
only ever divides finite values; other operand shapes are mapped to NaN
and never exercised.) -/
def ediv : EFloat → EFloat → EFloat
  | .fin a, .fin b =>
    if b = 0 then (if a = 0 then .nan else if a > 0 then .inf else .neginf)
    else .fin (a / b)
  | _, _ => .nan

/-- One row of the Mix Summary in its final column order
`['Product mix', 'Orders', '% of total', 'Net sales', '% of net sales']`. -/
structure MixRow where
  product_mix : String
  orders : ℕ
  share_of_orders : EFloat
  net_sales : ℚ
  share_of_net_sales : EFloat
deriving DecidableEq

/-- The groups of the line-359 `groupby('product_mix')`. -/
def mix_groups (gs : List OrderRow) : List (String × List OrderRow) :=
  (firstOccur (gs.map (fun g => g.product_mix))).map
    (fun m => (m, gs.filter (fun g => (g.product_mix = m : Bool))))

/-- `total_orders = mix_df['Orders'].sum()` (line 362). -/
def total_orders_of (gs : List OrderRow) : ℕ :=
  ((mix_groups gs).map (fun p => p.2.length)).sum

/-- `total_net = mix_df['Net sales'].sum()` (line 363). -/
def total_net_of (gs : List OrderRow) : ℚ :=
  ((mix_groups gs).map (fun p => (p.2.map (fun g => g.net_sales)).sum)).sum

/-- `mix_df` (lines 359–368): per mix, order count and summed net sales,
the two share columns divided by the grand totals, sorted descending by
order count. -/
def mix_df_of (gs : List OrderRow) : List MixRow :=
  sortLe (fun a b => b.orders ≤ a.orders)
    ((mix_groups gs).map (fun p =>
      { product_mix := p.1
        orders := p.2.length
        share_of_orders := ediv (.fin (p.2.length : ℚ)) (.fin (total_orders_of gs : ℚ))
        net_sales := (p.2.map (fun g => g.net_sales)).sum
        share_of_net_sales :=
          ediv (.fin ((p.2.map (fun g => g.net_sales)).sum)) (.fin (total_net_of gs)) }))

/-! ### First-order extraction (src/app.py lines 370–372) -/

/-- Ascending date order with nulls (NaT) sorted last, as
`sort_values('date')` with the default `na_position='last'` orders a
datetime column.  The stray string case (never produced by the
pipeline, whose dates are null or numeric after `to_datetime`) is
ordered before numbers so the comparison is total. -/
def dateLeB : Scalar → Scalar → Bool
  | .null, .null => true
  | .null, _ => false
  | _, .null => true
  | .num a, .num b => a ≤ b
  | .str a, .str b => strLeB a b
  | .str _, .num _ => true
  | .num _, .str _ => false

/-- `first_orders` (line 370): sort the orders ascending by date (nulls
last) and keep the first row per distinct `final_cust_id`. -/
def first_orders (gs : List OrderRow) : List OrderRow :=
  dropDupsBy (fun g => g.final_cust_id)
    (sortLe (fun a b => dateLeB a.date b.date) gs) []

/-- One row of the First-Order Summary (lines 371–372). -/
structure FirstRow where
  final_cust_id : Scalar
  order_id : Scalar
  date : Scalar
  product_mix : String
deriving DecidableEq

/-- `first_orders_out` (lines 371–372): project the kept columns. -/
def first_orders_out (gs : List OrderRow) : List FirstRow :=
  (first_orders gs).map (fun g =>
    { final_cust_id := g.final_cust_id
      order_id := g.order_id
      date := g.date
      product_mix := g.product_mix })

/-! ### The whole pipeline -/

/-- How a run can fail: the explicit missing-`order_id` abort of lines
284–286, or the pandas `KeyError` raised by the line-345
`agg({..., 'date': 'min'})` when no column resolved to `date` (there is
no `df['date']` default, unlike `customer_id`/`email`/`net_sales`/
`quantity`; the exception is caught by the generic top-level handler at
line 414 and no output is produced). -/
inductive PipeError where
  | missingOrderId
  | missingDateColumn
deriving DecidableEq

/-- All row-level stages of the pipeline, in source order (lines
288–343), from the decoded table to the rows entering the order
aggregation. -/
def filtered_rows (cols : List String) (raws : List RawRow) (st : AppSettings) : List CanonRow :=
  let cm := resolve_columns cols
  let rows0 := raws.map (mkCanonRow cm)
  let rows1 := canceled_filter cm.canceled.isSome rows0
  let rows2 := payment_filter cm.financial_status.isSome rows1
  let rows3 := net_sales_stage cm.net_sales.isSome rows2
  let rows4 := quantity_stage cm.quantity.isSome rows3
  let rows5 := sku_filter cm.sku.isSome st.ignore_skus rows4
  let rows6 := title_filter cm.product_title.isSome st.ignore_titles rows5
  let rows7 := combo_filter cm.product_title.isSome cm.variant_title.isSome st.ignore_vars rows6
  let rows8 := ident_stage cm.product_title.isSome cm.variant_title.isSome cm.sku.isSome st rows7
  let rows9 := date_stage cm.date.isSome rows8
  cust_stage rows9

/-- The pipeline of src/app.py lines 279–372: resolve columns, abort
when `order_id` resolved to nothing, run all row-level stages, fail with
the aggregation `KeyError` when no `date` column was resolved, and
otherwise produce the Mix Summary and the First-Order Summary. -/
def runFull (cols : List String) (raws : List RawRow) (st : AppSettings) :
    Except PipeError (List MixRow × List FirstRow) :=
  let cm := resolve_columns cols
  if cm.order_id.isNone then .error .missingOrderId
  else
    let rows := filtered_rows cols raws st
    if cm.date.isNone then .error .missingDateColumn
    else
      let gs := order_groups_of rows
      .ok (mix_df_of gs, first_orders_out gs)

/-! ### Concrete datasets used when settling individual claims -/

/-- Sidebar defaults: SKU identifier mode, quantity differentiation off,
empty ignore lists. -/
def defaultSettings : AppSettings :=
  { id_mode := .sku, use_quantity := false, ignore_skus := [], ignore_titles := [], ignore_vars := [] }

/-- A dataset whose headers resolve `order_id` (and `product_title`) but
nothing resolves to `date`. -/
def c1_cols : List String := ["order id", "product title"]

/-- One well-formed line item for `c1_cols`. -/
def c1_raws : List RawRow :=
  [[("order id", Scalar.str "1001"), ("product title", Scalar.str "Shirt")]]

/-- Quantity-differentiation settings (SKU mode, quantity option on). -/
def c4_settings : AppSettings :=
  { id_mode := .sku, use_quantity := true, ignore_skus := [], ignore_titles := [], ignore_vars := [] }

/-- Headers for the quantity-differentiation dataset: `order_id`,
`date` and `quantity` resolve; no title/variant/SKU column exists. -/
def c4_cols : List String := ["order id", "date", "lineitem quantity"]

/-- One row with quantity 2 and no product name anywhere. -/
def c4_raws : List RawRow :=
  [[("order id", Scalar.str "1"), ("date", Scalar.null), ("lineitem quantity", Scalar.num 2)]]

/-- Headers for the degenerate-totals dataset. -/
def c5_cols : List String := ["order id", "product title", "net sales", "date"]

/-- Two one-line orders whose net sales cancel out exactly
(`"50.00"` and the accounting-negative `"(50.00)"`). -/
def c5_raws : List RawRow :=
  [[("order id", Scalar.str "1"), ("product title", Scalar.str "A"),
    ("net sales", Scalar.str "50.00"), ("date", Scalar.null)],
   [("order id", Scalar.str "2"), ("product title", Scalar.str "B"),
    ("net sales", Scalar.str "(50.00)"), ("date", Scalar.null)]]

/-- Headers for a dataset whose single row is cancelled. -/
def c5w_cols : List String := ["order id", "date", "is canceled order"]

/-- One cancelled row: every row is filtered out, zero orders survive. -/
def c5w_raws : List RawRow :=
  [[("order id", Scalar.str "9"), ("date", Scalar.null),
    ("is canceled order", Scalar.str "true")]]

/-- One order with one finite net-sales value, for exercising the
`0/0 → NaN` share. -/
def c5w_orders : List OrderRow :=
  [{ order_id := .str "1", identifiers := ["A"], net_sales := 0,
     final_cust_id := .str "c", date := .null, product_mix := "A" }]

/-- Three line items of one order carrying identifiers `b`, `a`, `b` —
the duplicated identifier exercises the dedup property. -/
def c7_rows : List CanonRow :=
  [{ order_id := .str "1", identifier := "b" },
   { order_id := .str "1", identifier := "a" },
   { order_id := .str "1", identifier := "b" }]

/-- The order `order_groups_of` produces from `c7_rows`. -/
def c7_group : OrderRow :=
  { order_id := .str "1", identifiers := ["a", "b", "b"], net_sales := 0,
    final_cust_id := .null, date := .null, product_mix := "a + b" }

/-- Customer C1's January 2024 order (timestamps encoded as YYYYMMDD). -/
def oJan : OrderRow :=
  { order_id := .str "O1", identifiers := ["Shirt"], net_sales := 0,
    final_cust_id := .str "C1", date := .num 20240101, product_mix := "Shirt" }

/-- Customer C1's February 2024 order. -/
def oFeb : OrderRow :=
  { order_id := .str "O2", identifiers := ["Hat"], net_sales := 0,
    final_cust_id := .str "C1", date := .num 20240201, product_mix := "Hat" }

/-! ### Lemmas about the list primitives -/

theorem insertLe_perm (le : α → α → Bool) (a : α) (l : List α) :
    List.Perm (insertLe le a l) (a :: l) := by
  induction l with
  | nil => exact List.Perm.refl _
  | cons b l ih =>
    by_cases h : le a b = true
    · simp [insertLe, h]
    · simp only [insertLe, h, if_false]
      exact (List.Perm.cons b ih).trans (List.Perm.swap a b l)

theorem sortLe_perm (le : α → α → Bool) (l : List α) :
    List.Perm (sortLe le l) l := by
  induction l with
  | nil => exact List.Perm.refl _
  | cons a l ih =>
    exact (insertLe_perm le a (sortLe le l)).trans (List.Perm.cons a ih)

theorem mem_sortLe (le : α → α → Bool) (l : List α) (x : α) :
    x ∈ sortLe le l ↔ x ∈ l :=
  (sortLe_perm le l).mem_iff

theorem count_sortLe [DecidableEq α] (le : α → α → Bool) (l : List α) (x : α) :
    (sortLe le l).count x = l.count x :=
  (sortLe_perm le l).count_eq x

theorem nodup_sortLe (le : α → α → Bool) (l : List α) (h : l.Nodup) :
    (sortLe le l).Nodup :=
  ((sortLe_perm le l).nodup_iff).mpr h

theorem pairwise_insertLe (le : α → α → Bool)
    (htot : ∀ x y, le x y = true ∨ le y x = true)
    (htr : ∀ x y z, le x y = true → le y z = true → le x z = true)
    (a : α) (l : List α) (h : List.Pairwise (fun x y => le x y = true) l) :
    List.Pairwise (fun x y => le x y = true) (insertLe le a l) := by
  induction l with
  | nil => simp [insertLe]
  | cons b l ih =>
    obtain ⟨hb, hl⟩ := List.pairwise_cons.mp h
    by_cases hab : le a b = true
    · simp only [insertLe, hab, if_true]
      refine List.Pairwise.cons ?_ (List.Pairwise.cons hb hl)
      intro y hy
      rcases List.mem_cons.mp hy with h1 | h1
      · exact h1 ▸ hab
      · exact htr a b y hab (hb y h1)
    · simp only [insertLe, hab, if_false]
      refine List.Pairwise.cons ?_ (ih hl)
      intro y hy
      rcases List.mem_cons.mp ((insertLe_perm le a l).mem_iff.mp hy) with h1 | h1
      · rw [h1]
        rcases htot a b with h2 | h2
        · exact absurd h2 hab
        · exact h2
      · exact hb y h1

theorem pairwise_sortLe (le : α → α → Bool)
    (htot : ∀ x y, le x y = true ∨ le y x = true)
    (htr : ∀ x y z, le x y = true → le y z = true → le x z = true)
    (l : List α) :
    List.Pairwise (fun x y => le x y = true) (sortLe le l) := by
  induction l with
  | nil => simp [sortLe]
  | cons a l ih => exact pairwise_insertLe le htot htr a (sortLe le l) ih

theorem mem_dedupL [DecidableEq α] (l : List α) (x : α) :
    x ∈ dedupL l ↔ x ∈ l := by
  induction l with
  | nil => simp [dedupL]
  | cons a l ih =>
    by_cases h : a ∈ l
    · simp only [dedupL, h, if_true, ih, List.mem_cons]
      constructor
      · exact Or.inr
      · rintro (rfl | hx)
        · exact h
        · exact hx
    · simp [dedupL, h, ih]

theorem nodup_dedupL [DecidableEq α] (l : List α) : (dedupL l).Nodup := by
  induction l with
  | nil => simp [dedupL]
  | cons a l ih =>
    by_cases h : a ∈ l
    · simpa [dedupL, h] using ih
    · simp only [dedupL, h, if_false]
      exact List.Pairwise.cons (fun y hy hay => h (hay ▸ (mem_dedupL l y).mp hy)) ih

theorem mem_dropDupsBy [DecidableEq κ] (key : α → κ) (l : List α) (seen : List κ)
    (r : α) (h : r ∈ dropDupsBy key l seen) : r ∈ l ∧ key r ∉ seen := by
  induction l generalizing seen with
  | nil => simp [dropDupsBy] at h
  | cons a l ih =>
    by_cases hk : key a ∈ seen
    · simp only [dropDupsBy, hk, if_true] at h
      exact ⟨List.mem_cons_of_mem a (ih seen h).1, (ih seen h).2⟩
    · simp only [dropDupsBy, hk, if_false, List.mem_cons] at h
      rcases h with rfl | h
      · exact ⟨List.mem_cons_self _ _, hk⟩
      · have h2 := ih (key a :: seen) h
        exact ⟨List.mem_cons_of_mem a h2.1, fun hs => h2.2 (List.mem_cons_of_mem _ hs)⟩

theorem length_filter_dropDupsBy [DecidableEq κ] (key : α → κ) (l : List α)
    (seen : List κ) (c : κ) :
    ((dropDupsBy key l seen).filter (fun r => (key r = c : Bool))).length
      = if c ∉ seen ∧ ∃ x ∈ l, key x = c then 1 else 0 := by
  induction l generalizing seen with
  | nil => simp [dropDupsBy]
  | cons a l ih =>
    by_cases hk : key a ∈ seen
    · rw [dropDupsBy, if_pos hk, ih]
      refine if_congr ?_ rfl rfl
      constructor
      · rintro ⟨h1, x, hx, hxc⟩
        exact ⟨h1, x, List.mem_cons_of_mem a hx, hxc⟩
      · rintro ⟨h1, x, hx, hxc⟩
        rcases List.mem_cons.mp hx with rfl | hx2
        · exact absurd (hxc ▸ hk) h1
        · exact ⟨h1, x, hx2, hxc⟩
    · rw [dropDupsBy, if_neg hk]
      by_cases hac : key a = c
      · rw [List.filter_cons_of_pos (by simpa using hac), List.length_cons, ih]
        have h0 : ¬(c ∉ (key a :: seen) ∧ ∃ x ∈ l, key x = c) := by
          rintro ⟨h1, _⟩
          exact h1 (hac ▸ List.mem_cons_self _ _)
        rw [if_neg h0]
        have h1 : c ∉ seen ∧ ∃ x ∈ a :: l, key x = c :=
          ⟨fun hcs => hk (hac ▸ hcs), a, List.mem_cons_self _ _, hac⟩
        rw [if_pos h1]
      · rw [List.filter_cons_of_neg (by simpa using hac), ih]
        refine if_congr ?_ rfl rfl
        constructor
        · rintro ⟨h1, x, hx, hxc⟩
          exact ⟨fun hcs => h1 (List.mem_cons_of_mem _ hcs), x, List.mem_cons_of_mem a hx, hxc⟩
        · rintro ⟨h1, x, hx, hxc⟩
          rcases List.mem_cons.mp hx with rfl | hx2
          · exact absurd hxc hac
          · refine ⟨fun hcs => ?_, x, hx2, hxc⟩
            rcases List.mem_cons.mp hcs with h2 | h2
            · exact hac h2.symm
            · exact h1 h2

theorem min_of_dropDupsBy [DecidableEq κ] (key : α → κ) (le : α → α → Bool)
    (hrefl : ∀ x, le x x = true) (l : List α) (seen : List κ)
    (hpw : List.Pairwise (fun x y => le x y = true) l)
    (r : α) (hr : r ∈ dropDupsBy key l seen) :
    ∀ o ∈ l, key o = key r → le r o = true := by
  induction l generalizing seen with
  | nil => simp [dropDupsBy] at hr
  | cons a l ih =>
    obtain ⟨ha, hl⟩ := List.pairwise_cons.mp hpw
    intro o ho hko
    by_cases hk : key a ∈ seen
    · rw [dropDupsBy, if_pos hk] at hr
      rcases List.mem_cons.mp ho with h1 | ho2
      · -- o is the skipped head: its key is in seen, but the kept row's key is not
        have h2 := (mem_dropDupsBy key l seen r hr).2
        exact absurd (hko ▸ (h1 ▸ hk)) h2
      · exact ih seen hl hr o ho2 hko
    · rw [dropDupsBy, if_neg hk] at hr
      rcases List.mem_cons.mp hr with h1 | hr2
      · subst h1
        rcases List.mem_cons.mp ho with h2 | ho2
        · subst h2; exact hrefl o
        · exact ha o ho2
      · rcases List.mem_cons.mp ho with h2 | ho2
        · subst h2
          have h3 := (mem_dropDupsBy key l (key o :: seen) r hr2).2
          exact absurd (by rw [← hko]; exact List.mem_cons_self _ _) h3
        · exact ih (key a :: seen) hl hr2 o ho2 hko

/-! ### The comparison functions are total preorders -/

theorem lexLeChars_refl (l : List Char) : lexLeChars l l = true := by
  induction l with
  | nil => rfl
  | cons a l ih => simp [lexLeChars, ih]

theorem lexLeChars_total (l1 l2 : List Char) :
    lexLeChars l1 l2 = true ∨ lexLeChars l2 l1 = true := by
  induction l1 generalizing l2 with
  | nil => exact Or.inl rfl
  | cons a as ih =>
    cases l2 with
    | nil => exact Or.inr rfl
    | cons b bs =>
      rcases lt_trichotomy a b with h | h | h
      · exact Or.inl (by simp [lexLeChars, h])
      · subst h
        rcases ih bs with h2 | h2
        · exact Or.inl (by simp [lexLeChars, lt_irrefl, h2])
        · exact Or.inr (by simp [lexLeChars, lt_irrefl, h2])
      · exact Or.inr (by simp [lexLeChars, h])

theorem lexLeChars_trans (l1 l2 l3 : List Char)
    (h12 : lexLeChars l1 l2 = true) (h23 : lexLeChars l2 l3 = true) :
    lexLeChars l1 l3 = true := by
  induction l1 generalizing l2 l3 with
  | nil => rfl
  | cons a as ih =>
    cases l2 with
    | nil => simp [lexLeChars] at h12
    | cons b bs =>
      cases l3 with
      | nil => simp [lexLeChars] at h23
      | cons c cs =>
        by_cases hab : a < b
        · by_cases hbc : b < c
          · simp [lexLeChars, hab.trans hbc]
          · by_cases hcb : c < b
            · simp [lexLeChars, hcb, not_lt_of_lt hcb, lt_asymm hcb] at h23
            · have hbc2 : b = c := le_antisymm (not_lt.mp hcb) (not_lt.mp hbc)
              simp [lexLeChars, hbc2 ▸ hab]
        · by_cases hba : b < a
          · simp [lexLeChars, hab, hba] at h12
          · have hab2 : a = b := le_antisymm (not_lt.mp hba) (not_lt.mp hab)
            subst hab2
            simp only [lexLeChars, lt_irrefl, if_false] at h12
            by_cases hac : a < c
            · simp [lexLeChars, hac]
            · by_cases hca : c < a
              · simp [lexLeChars, hac, hca] at h23
              · have hac2 : a = c := le_antisymm (not_lt.mp hca) (not_lt.mp hac)
                subst hac2
                simp only [lexLeChars, lt_irrefl, if_false] at h23 ⊢
                exact ih bs cs h12 h23

theorem strLeB_refl (s : String) : strLeB s s = true := lexLeChars_refl _

theorem strLeB_total (a b : String) : strLeB a b = true ∨ strLeB b a = true :=
  lexLeChars_total _ _

theorem strLeB_trans (a b c : String) (h1 : strLeB a b = true) (h2 : strLeB b c = true) :
    strLeB a c = true :=
  lexLeChars_trans _ _ _ h1 h2

theorem dateLeB_refl (a : Scalar) : dateLeB a a = true := by
  cases a with
  | null => rfl
  | str s => exact strLeB_refl s
  | num q => simp [dateLeB]

theorem dateLeB_total (a b : Scalar) : dateLeB a b = true ∨ dateLeB b a = true := by
  cases a with
  | null =>
    cases b with
    | null => exact Or.inl rfl
    | str s => exact Or.inr rfl
    | num q => exact Or.inr rfl
  | str s =>
    cases b with
    | null => exact Or.inl rfl
    | str t => exact strLeB_total s t
    | num q => exact Or.inl rfl
  | num p =>
    cases b with
    | null => exact Or.inl rfl
    | str t => exact Or.inr rfl
    | num q =>
      rcases le_total p q with h | h
      · exact Or.inl (by simpa [dateLeB] using h)
      · exact Or.inr (by simpa [dateLeB] using h)

theorem dateLeB_trans (a b c : Scalar)
    (h1 : dateLeB a b = true) (h2 : dateLeB b c = true) : dateLeB a c = true := by
  cases a with
  | null =>
    cases b with
    | null => exact h2
    | str s => exact absurd h1 (by simp [dateLeB])
    | num q => exact absurd h1 (by simp [dateLeB])
  | str s =>
    cases b with
    | null =>
      cases c with
      | null => rfl
      | str t => exact absurd h2 (by simp [dateLeB])
      | num q => exact absurd h2 (by simp [dateLeB])
    | str t =>
      cases c with
      | null => rfl
      | str u => exact strLeB_trans s t u h1 h2
      | num q => rfl
    | num q =>
      cases c with
      | null => rfl
      | str u => exact absurd h2 (by simp [dateLeB])
      | num r => rfl
  | num p =>
    cases b with
    | null =>
      cases c with
      | null => rfl
      | str t => exact absurd h2 (by simp [dateLeB])
      | num q => exact absurd h2 (by simp [dateLeB])
    | str t => exact absurd h1 (by simp [dateLeB])
    | num q =>
      cases c with
      | null => rfl
      | str u => exact absurd h2 (by simp [dateLeB])
      | num r =>
        have g1 : p ≤ q := by simpa [dateLeB] using h1
        have g2 : q ≤ r := by simpa [dateLeB] using h2
        simpa [dateLeB] using g1.trans g2

/-! ### Dictionary lemmas (for the header-resolution claim) -/

theorem find_map_replace_ne (d : Dict) (k v k2 : String) (hne : k2 ≠ k) :
    (d.map (fun p => if p.1 = k then (k, v) else p)).find? (fun p => (p.1 = k2 : Bool))
      = d.find? (fun p => (p.1 = k2 : Bool)) := by
  induction d with
  | nil => rfl
  | cons p d ih =>
    rw [List.map_cons]
    by_cases hpk : p.1 = k
    · rw [if_pos hpk]
      have h1 : ¬(p.1 = k2) := fun h => hne (h.symm.trans hpk)
      have h2 : ¬(((k, v) : String × String).1 = k2) := fun h => hne h.symm
      rw [List.find?_cons_of_neg _ (by simpa using h2),
          List.find?_cons_of_neg _ (by simpa using h1), ih]
    · rw [if_neg hpk]
      by_cases h1 : p.1 = k2
      · rw [List.find?_cons_of_pos _ (by simpa using h1),
            List.find?_cons_of_pos _ (by simpa using h1)]
      · rw [List.find?_cons_of_neg _ (by simpa using h1),
            List.find?_cons_of_neg _ (by simpa using h1), ih]

theorem find_map_replace_eq (d : Dict) (k v : String)
    (hany : d.any (fun p => (p.1 = k : Bool)) = true) :
    (d.map (fun p => if p.1 = k then (k, v) else p)).find? (fun p => (p.1 = k : Bool))
      = some (k, v) := by
  induction d with
  | nil => simp at hany
  | cons p d ih =>
    rw [List.map_cons]
    by_cases hpk : p.1 = k
    · rw [if_pos hpk, List.find?_cons_of_pos _ (by simp)]
    · rw [if_neg hpk, List.find?_cons_of_neg _ (by simpa using hpk)]
      apply ih
      rw [List.any_cons] at hany
      rcases Bool.or_eq_true_iff.mp hany with h | h
      · exact absurd (by simpa using h) hpk
      · exact h

theorem find_append_single (d : Dict) (k v k2 : String)
    (hnone : d.any (fun p => (p.1 = k : Bool)) = false) :
    (d ++ [(k, v)]).find? (fun p => (p.1 = k2 : Bool))
      = if k2 = k then some (k, v) else d.find? (fun p => (p.1 = k2 : Bool)) := by
  induction d with
  | nil =>
    simp only [List.nil_append]
    by_cases hk2 : k2 = k
    · rw [List.find?_cons_of_pos _ (by simpa using hk2.symm), if_pos hk2]
    · rw [List.find?_cons_of_neg _ (by simpa using fun h : (k : String) = k2 => hk2 h.symm),
          if_neg hk2]
  | cons p d ih =>
    rw [List.any_cons] at hnone
    have hsplit := Bool.or_eq_false_iff.mp hnone
    have h1 : ¬(p.1 = k) := by simpa using hsplit.1
    have h2 := hsplit.2
    rw [List.cons_append]
    by_cases hp2 : p.1 = k2
    · have hk2 : ¬(k2 = k) := fun h => h1 (hp2.trans h)
      rw [List.find?_cons_of_pos _ (by simpa using hp2), if_neg hk2,
          List.find?_cons_of_pos _ (by simpa using hp2)]
    · rw [List.find?_cons_of_neg _ (by simpa using hp2), ih h2]
      by_cases hk2 : k2 = k
      · rw [if_pos hk2, if_pos hk2]
      · rw [if_neg hk2, if_neg hk2, List.find?_cons_of_neg _ (by simpa using hp2)]

theorem dictFind_insert (d : Dict) (k v k2 : String) :
    dictFind (dictInsert d k v) k2 = if k2 = k then some v else dictFind d k2 := by
  by_cases hany : d.any (fun p => (p.1 = k : Bool)) = true
  · rw [dictInsert, if_pos hany]
    by_cases hk2 : k2 = k
    · rw [if_pos hk2]
      unfold dictFind
      rw [hk2, find_map_replace_eq d k v hany]
      rfl
    · rw [if_neg hk2]
      unfold dictFind
      rw [find_map_replace_ne d k v k2 hk2]
  · rw [dictInsert, if_neg hany]
    unfold dictFind
    rw [find_append_single d k v k2 (Bool.eq_false_iff.mpr hany)]
    by_cases hk2 : k2 = k
    · simp [hk2]
    · simp [hk2]

theorem foldl_pick_isSome (p : String → Bool) (cols : List String) (acc : Option String) :
    (cols.foldl (fun acc c => if p c then some c else acc) acc).isSome
      = (cols.any p || acc.isSome) := by
  induction cols generalizing acc with
  | nil => simp
  | cons c cols ih =>
    rw [List.foldl_cons, List.any_cons, ih]
    by_cases h : p c = true
    · simp [h]
    · have hf : p c = false := Bool.eq_false_iff.mpr h
      simp [hf]

theorem pickLast_isSome_eq_any (p : String → Bool) (cols : List String) :
    (pickLast p cols).isSome = cols.any p := by
  rw [pickLast, foldl_pick_isSome]
  simp

theorem foldl_pick_self (p : String → Bool) (c : String)
    (hc : ∀ col, p col = true → col = c) (cols : List String) (acc : Option String)
    (hacc : acc = none ∨ acc = some c) :
    cols.foldl (fun acc col => if p col then some col else acc) acc = none
      ∨ cols.foldl (fun acc col => if p col then some col else acc) acc = some c := by
  induction cols generalizing acc with
  | nil => exact hacc
  | cons col cols ih =>
    rw [List.foldl_cons]
    by_cases h : p col = true
    · exact ih _ (Or.inr (by rw [if_pos h, hc col h]))
    · exact ih _ (by rwa [if_neg h])

theorem pickLast_eq_of_any (p : String → Bool) (c : String)
    (hc : ∀ col, p col = true → col = c) (cols : List String)
    (hany : cols.any p = true) :
    pickLast p cols = some c := by
  have h1 := foldl_pick_self p c hc cols none (Or.inl rfl)
  have h2 := pickLast_isSome_eq_any p cols
  rw [hany] at h2
  rcases h1 with h | h
  · exfalso
    have h3 : pickLast p cols = none := h
    rw [h3] at h2
    simp at h2
  · exact h

theorem contains_eq_any (l : List String) (c : String) :
    l.contains c = l.any (fun col => (col = c : Bool)) := by
  induction l with
  | nil => rfl
  | cons x l ih =>
    rw [List.any_cons, ← ih]
    by_cases h : x = c
    · simp [List.contains_cons, h]
    · have h2 : ¬(c = x) := fun hh => h hh.symm
      simp [List.contains_cons, h, h2]

theorem dictFind_buildDict (f : String → String) (cols : List String) (k : String) :
    dictFind (buildDict f cols) k
      = pickLast (fun col => (f col = k : Bool)) cols := by
  have aux : ∀ (cs : List String) (d : Dict),
      dictFind (cs.foldl (fun d c => dictInsert d (f c) c) d) k
        = cs.foldl (fun acc c => if (f c = k : Bool) then some c else acc) (dictFind d k) := by
    intro cs
    induction cs with
    | nil => intro d; rfl
    | cons c cs ih =>
      intro d
      rw [List.foldl_cons, List.foldl_cons, ih, dictFind_insert]
      by_cases h : f c = k
      · rw [if_pos h.symm]
        simp [h]
      · rw [if_neg (fun hh => h hh.symm)]
        simp [h]
  rw [buildDict, pickLast, aux]
  rfl

theorem find?_congrP (l : List String) (p q : String → Bool) (h : ∀ a, p a = q a) :
    l.find? p = l.find? q := by
  have : p = q := funext h
  rw [this]

/-- Claim C2 (confirmed): for every set of dataset column names and
every alias list, `find_column` equals the resolver worded by the spec
(`specResolve`): stage 1 (exact match) exhausts all aliases, then stage
2 (case-insensitive), then stage 3 (normalized via `normalize_header`,
which lower-cases, maps `_` and `-` to spaces and trims); within the
current stage the first alias in priority order that matches wins, and
stages are never mixed. -/
theorem C2_resolution_staged (cols cands : List String) :
    find_column cols cands = specResolve cols cands := by
  have hp1 : (fun c => cols.contains c) = (fun c => cols.any (fun col => matchExactB col c)) :=
    funext fun c => contains_eq_any cols c
  have hp2 : (fun c => (dictFind (buildDict pyLower cols) (pyLower c)).isSome)
      = (fun c => cols.any (fun col => matchCIB col c)) :=
    funext fun c => by
      rw [dictFind_buildDict]
      exact pickLast_isSome_eq_any (fun col => matchCIB col c) cols
  have hp3 : (fun c => (dictFind (buildDict normalize_header cols) (normalize_header c)).isSome)
      = (fun c => cols.any (fun col => matchNormB col c)) :=
    funext fun c => by
      rw [dictFind_buildDict]
      exact pickLast_isSome_eq_any (fun col => matchNormB col c) cols
  simp only [find_column, specResolve, stage_pick, hp1, hp2, hp3]
  cases h1 : cands.find? (fun c => cols.any (fun col => matchExactB col c)) with
  | some c =>
    simp only [h1]
    have hq0 := List.find?_some h1
    have hq : cols.any (fun col => matchExactB col c) = true := hq0
    rw [pickLast_eq_of_any (fun col => matchExactB col c) c
      (fun col h => by simpa [matchExactB] using h) cols hq]
  | none =>
    simp only [h1]
    cases h2 : cands.find? (fun c => cols.any (fun col => matchCIB col c)) with
    | some c =>
      simp only [h2]
      have hq0 := List.find?_some h2
      have hq : cols.any (fun col => matchCIB col c) = true := hq0
      have hsome : (pickLast (fun col => matchCIB col c) cols).isSome = true := by
        rw [pickLast_isSome_eq_any]; exact hq
      obtain ⟨r, hr⟩ := Option.isSome_iff_exists.mp hsome
      have hv : dictFind (buildDict pyLower cols) (pyLower c)
          = pickLast (fun col => matchCIB col c) cols := by
        rw [dictFind_buildDict]
        rfl
      rw [hv, hr]
    | none =>
      simp only [h2]
      cases h3 : cands.find? (fun c => cols.any (fun col => matchNormB col c)) with
      | some c =>
        simp only [h3]
        have hq0 := List.find?_some h3
        have hq : cols.any (fun col => matchNormB col c) = true := hq0
        have hsome : (pickLast (fun col => matchNormB col c) cols).isSome = true := by
          rw [pickLast_isSome_eq_any]; exact hq
        obtain ⟨r, hr⟩ := Option.isSome_iff_exists.mp hsome
        have hv : dictFind (buildDict normalize_header cols) (normalize_header c)
            = pickLast (fun col => matchNormB col c) cols := by
          rw [dictFind_buildDict]
          rfl
        rw [hv, hr]
      | none => simp only [h3]

/-! ### Claim theorems

The Batteries rational operations are `@[irreducible]`; the concrete
evaluations below re-enable definitional unfolding for them locally so
that `decide`/`rfl` can compute with exact rationals. -/

section ClaimTheorems

attribute [local semireducible] Rat.add Rat.mul Rat.sub Rat.inv Rat.ofScientific

/-- Claim C1 (code bug): the claim says that with `order_id` resolved but
no column resolving to `date` the pipeline still completes, producing
both tables with a null order date.  The code instead fails: the
aggregation `agg({..., 'date': 'min'})` at src/app.py line 345 raises a
`KeyError` for the absent `date` column (no default is ever assigned to
it, unlike `customer_id`, `email`, `net_sales` and `quantity`), the
generic handler reports a failure and no output table is produced.  This
theorem evaluates the embedded pipeline at the failing input. -/
theorem C1_missing_date_column_fails :
    runFull c1_cols c1_raws defaultSettings = Except.error PipeError.missingDateColumn := by
  rfl

/-- Claim C3 (code bug): the claim says the title-contains ignore filter
never drops a row whose `product_title` is missing.  But line 306 runs
`astype(str)` before `.str.contains(..., na=False)`, so a null title has
already become the literal string `"nan"` when the containment test
runs: with ignore entry `"nan"` the null-titled row is dropped.  The
first conjunct shows the stringification, the second evaluates the
filter at the failing input (one row, null title) and shows the row
gone. -/
theorem C3_null_title_dropped :
    Scalar.pyStr Scalar.null = "nan" ∧
    title_filter true ["nan"] [({} : CanonRow)] = [] := by
  exact ⟨rfl, rfl⟩

/-- Claim C6 (confirmed): `parse_money` is a total Lean function (purity
and totality are inherent in the embedding); null maps to 0, `"$1,200.00"`
parses to 1200 after stripping `,` and `$`, the parenthesized
`"(50.00)"` is negated to −50, an unparseable string yields 0, and an
order combining the two scenario values sums to 1150. -/
theorem C6_parse_money_spec :
    parse_money Scalar.null = 0 ∧
    parse_money (Scalar.str "$1,200.00") = 1200 ∧
    parse_money (Scalar.str "(50.00)") = -50 ∧
    parse_money (Scalar.str "abc") = 0 ∧
    parse_money (Scalar.str "$1,200.00") + parse_money (Scalar.str "(50.00)") = 1150 := by
  refine ⟨by decide, by decide, by decide, by decide, by decide⟩

/-- Claim C9 (confirmed): whenever no column resolves to `order_id`, the
run aborts with the missing-required-column error before any filtering
or aggregation and neither output table is produced (the `Except.error`
result carries no tables). -/
theorem C9_missing_order_id_aborts (cols : List String) (raws : List RawRow)
    (st : AppSettings) (h : find_column cols order_id_candidates = none) :
    runFull cols raws st = Except.error PipeError.missingOrderId := by
  have h2 : (resolve_columns cols).order_id = none := h
  simp only [runFull]
  rw [h2]
  rfl

/-- Witness for C9 at a concrete dataset with no order-id-like header. -/
theorem C9_missing_order_id_witness :
    runFull ["foo"] [] defaultSettings = Except.error PipeError.missingOrderId :=
  C9_missing_order_id_aborts ["foo"] [] defaultSettings (by decide)

/-- Claim C10 (confirmed): when a `financial_status` column is resolved,
a row whose status is null stringifies to `"nan"` (not in the allow-set
`{paid, partially_paid}`), its keep-predicate is false, and the
payment-status filter removes it wholesale. -/
theorem C10_null_status_dropped (rows : List CanonRow) (r : CanonRow)
    (h : r.financial_status = Scalar.null) :
    (statusLower r).financial_status = Scalar.str "nan" ∧
    statusKeepB (statusLower r) = false ∧
    payment_filter true (r :: rows) = payment_filter true rows := by
  have hps : pyLower (Scalar.pyStr r.financial_status) = "nan" := by rw [h]; rfl
  have h1 : (statusLower r).financial_status = Scalar.str "nan" := by
    simp [statusLower, hps]
  have hkeep : statusKeepB (statusLower r) = false := by
    simp only [statusKeepB, h1]
    decide
  refine ⟨h1, hkeep, ?_⟩
  simp only [payment_filter, if_true, List.map_cons]
  rw [List.filter_cons_of_neg (by simp [hkeep])]

/-- Witness for C10 on a concrete all-null row. -/
theorem C10_null_status_witness :
    (statusLower ({} : CanonRow)).financial_status = Scalar.str "nan" ∧
    statusKeepB (statusLower ({} : CanonRow)) = false ∧
    payment_filter true [({} : CanonRow)] = payment_filter true [] :=
  C10_null_status_dropped [] ({} : CanonRow) rfl

/-- Counterexample for claim C4: with quantity differentiation enabled
and quantity 2, a row with no usable product name (no title, variant or
SKU column at all) derives the identifier `"2x "`, which is neither `''`
nor `'nan'`, survives the drop filter, and ends up as the sole member of
the order's `product_mix` — contradicting "no order's product_mix ever
contains a member derived from a row with no usable product name". -/
theorem C4_counterexample :
    runFull c4_cols c4_raws c4_settings =
      Except.ok ([{ product_mix := "2x ", orders := 1, share_of_orders := .fin 1,
                    net_sales := 0, share_of_net_sales := .nan }],
                 [{ final_cust_id := .str "(unknown)", order_id := .str "1",
                    date := .null, product_mix := "2x " }]) ∧
    get_identifier false false false c4_settings ({ quantity := .num 2 } : CanonRow) = "2x " ∧
    ("2x " ≠ "") := by
  refine ⟨by rfl, by decide, by decide⟩

/-- Claim C4 (corrected): every row whose final identifier is `''` or
`'nan'` is dropped before aggregation, and with quantity differentiation
off a row with no usable product name is always dropped; but with the
option on and quantity&nbsp;> 1, such a row's identifier is the non-empty
string `"<quantity>x "`, which survives (see `C4_counterexample`). -/
theorem C4_empty_identifier_dropped (hT hV hS : Bool) (st : AppSettings) (r : CanonRow) :
    ((get_identifier hT hV hS st r = "" ∨ get_identifier hT hV hS st r = "nan") →
      ident_stage hT hV hS st [r] = []) ∧
    (st.use_quantity = false →
      normField hT r.product_title = "" → normField hV r.variant_title = "" →
      normField hS r.sku = "" → ident_stage hT hV hS st [r] = []) ∧
    (st.use_quantity = true → rowQty r > 1 →
      normField hT r.product_title = "" → normField hV r.variant_title = "" →
      normField hS r.sku = "" →
      get_identifier hT hV hS st r = Scalar.pyStr r.quantity ++ "x ") := by
  refine ⟨?_, ?_, ?_⟩
  · intro h
    rcases h with h | h <;> simp [ident_stage, h]
  · intro hq hp hv hs
    have hid : get_identifier hT hV hS st r = "" := by
      cases hm : st.id_mode <;> simp [get_identifier, hp, hv, hs, hq, hm]
    simp [ident_stage, hid]
  · intro hq hgt hp hv hs
    cases hm : st.id_mode <;>
      simp [get_identifier, hp, hv, hs, hq, hm, hgt, String.append_empty]

/-- Witness for the amended C4: a fully nameless row is dropped when the
quantity option is off, and derives `"2x "` when it is on with
quantity 2. -/
theorem C4_empty_identifier_witness :
    ident_stage false false false defaultSettings [({} : CanonRow)] = [] ∧
    get_identifier false false false c4_settings ({ quantity := .num 2 } : CanonRow)
      = Scalar.pyStr (Scalar.num 2) ++ "x " := by
  constructor
  · exact (C4_empty_identifier_dropped false false false defaultSettings ({} : CanonRow)).2.1
      rfl rfl rfl rfl
  · exact (C4_empty_identifier_dropped false false false c4_settings
      ({ quantity := .num 2 } : CanonRow)).2.2 rfl (by decide) rfl rfl rfl

/-- Counterexample for claim C5: two surviving orders with net sales 50
and −50 give `total_net = 0`; the code divides anyway, so the share of
net sales is `+inf` for the first mix and `−inf` for the second — not
`0` and not null (NaN).  (The divisions do not raise, and the pipeline
completes: IEEE semantics, not an exception.) -/
theorem C5_counterexample :
    runFull c5_cols c5_raws defaultSettings =
      Except.ok ([{ product_mix := "A", orders := 1, share_of_orders := .fin (1/2),
                    net_sales := 50, share_of_net_sales := .inf },
                  { product_mix := "B", orders := 1, share_of_orders := .fin (1/2),
                    net_sales := -50, share_of_net_sales := .neginf }],
                 [{ final_cust_id := .str "(unknown)", order_id := .str "1",
                    date := .null, product_mix := "A" }]) ∧
    EFloat.inf ≠ EFloat.fin 0 ∧ EFloat.inf ≠ EFloat.nan := by
  refine ⟨by rfl, by decide, by decide⟩

/-- Claim C5 (corrected): the share computations never raise — with zero
surviving rows the pipeline completes with two empty output tables; and
when `total_net_sales` is zero every `share_of_net_sales` is NaN (for a
zero numerator) or `±inf` (for a non-zero one), rather than an
exception.  (The claim's "defined as 0 (or null)" fails for the `±inf`
cases, see `C5_counterexample`.) -/
theorem C5_degenerate_totals (cols : List String) (raws : List RawRow)
    (st : AppSettings) (orders : List OrderRow) :
    ((resolve_columns cols).order_id.isSome = true →
      (resolve_columns cols).date.isSome = true →
      filtered_rows cols raws st = [] →
      runFull cols raws st = Except.ok ([], [])) ∧
    (total_net_of orders = 0 →
      ∀ m ∈ mix_df_of orders, m.share_of_net_sales = EFloat.nan
        ∨ m.share_of_net_sales = EFloat.inf ∨ m.share_of_net_sales = EFloat.neginf) := by
  constructor
  · intro h1 h2 h3
    obtain ⟨v1, hv1⟩ := Option.isSome_iff_exists.mp h1
    obtain ⟨v2, hv2⟩ := Option.isSome_iff_exists.mp h2
    simp only [runFull, hv1, hv2, h3, Option.isNone_some]
    rfl
  · intro htot m hm
    have hm2 := (mem_sortLe _ _ m).mp hm
    obtain ⟨p, hp, rfl⟩ := List.mem_map.mp hm2
    show ediv (.fin ((p.2.map (fun g => g.net_sales)).sum)) (.fin (total_net_of orders))
        = EFloat.nan ∨ _ ∨ _
    rw [htot]
    rcases lt_trichotomy ((p.2.map (fun g => g.net_sales)).sum) 0 with h | h | h
    · right; right; simp [ediv, h.ne, lt_asymm h]
    · left; simp [ediv, h]
    · right; left; simp [ediv, h.ne', h]

/-- Witness for the amended C5: a dataset whose only row is cancelled
runs to completion with two empty tables, and the zero-total mix row of
`c5w_orders` takes a NaN share. -/
theorem C5_degenerate_totals_witness :
    runFull c5w_cols c5w_raws defaultSettings = Except.ok ([], []) ∧
    (({ product_mix := "A", orders := 1, share_of_orders := .fin 1, net_sales := 0,
        share_of_net_sales := .nan } : MixRow).share_of_net_sales = EFloat.nan
      ∨ ({ product_mix := "A", orders := 1, share_of_orders := .fin 1, net_sales := 0,
           share_of_net_sales := .nan } : MixRow).share_of_net_sales = EFloat.inf
      ∨ ({ product_mix := "A", orders := 1, share_of_orders := .fin 1, net_sales := 0,
           share_of_net_sales := .nan } : MixRow).share_of_net_sales = EFloat.neginf) := by
  constructor
  · exact (C5_degenerate_totals c5w_cols c5w_raws defaultSettings []).1
      (by decide) (by decide) (by decide)
  · exact (C5_degenerate_totals c5w_cols c5w_raws defaultSettings c5w_orders).2
      (by decide) _ (by decide)

/-- Claim C7 (confirmed): for every order group the pipeline produces,
`product_mix` is the join with `" + "` of `mix_members`, a list that is
sorted ascending (pairwise `≤` in code-point order) and contains each of
the order's line-item identifiers exactly once (count 1 for identifiers
of the order, 0 otherwise) — duplicates within an order collapse. -/
theorem C7_product_mix_sorted_dedup (rows : List CanonRow) (g : OrderRow)
    (hg : g ∈ order_groups_of rows) :
    g.product_mix = joinSep " + " (mix_members g.identifiers) ∧
    List.Pairwise (fun a b => strLeB a b = true) (mix_members g.identifiers) ∧
    ∀ x : String, (mix_members g.identifiers).count x
      = if x ∈ g.identifiers then 1 else 0 := by
  refine ⟨?_, ?_, ?_⟩
  · rw [order_groups_of] at hg
    obtain ⟨k, hk, rfl⟩ := List.mem_map.mp (List.mem_filter.mp hg).1
    rfl
  · exact pairwise_sortLe strLeB strLeB_total strLeB_trans (dedupL g.identifiers)
  · intro x
    rw [mix_members, count_sortLe]
    by_cases hx : x ∈ g.identifiers
    · rw [if_pos hx]
      exact List.count_eq_one_of_mem (nodup_dedupL _) ((mem_dedupL _ x).mpr hx)
    · rw [if_neg hx]
      exact List.count_eq_zero.mpr (fun h => hx ((mem_dedupL _ x).mp h))

/-- Witness for C7 on the three-line order with identifiers `b, a, b`:
the mix joins to `"a + b"` and the duplicated `b` counts once. -/
theorem C7_product_mix_witness :
    c7_group.product_mix = joinSep " + " (mix_members c7_group.identifiers) ∧
    (mix_members c7_group.identifiers).count "b" = 1 := by
  have h := C7_product_mix_sorted_dedup c7_rows c7_group (by decide)
  refine ⟨h.1, ?_⟩
  rw [h.2.2 "b"]
  decide

/-- Claim C8 (confirmed): the First-Order Summary keeps exactly one row
per distinct `customer_key` (a key occurs among the orders iff it
appears exactly once in the output), and every kept row is one of that
customer's orders whose date precedes (w.r.t. ascending order with null
dates last) the date of every order of the same customer — i.e. the
customer's order of minimum date. -/
theorem C8_first_order_per_customer (gs : List OrderRow) :
    (∀ c : Scalar, (∃ o ∈ gs, o.final_cust_id = c) ↔
      ((first_orders gs).filter (fun r => (r.final_cust_id = c : Bool))).length = 1) ∧
    (∀ r ∈ first_orders gs, r ∈ gs ∧
      ∀ o ∈ gs, o.final_cust_id = r.final_cust_id → dateLeB r.date o.date = true) := by
  constructor
  · intro c
    rw [first_orders]
    have hlen := length_filter_dropDupsBy (fun g : OrderRow => g.final_cust_id)
        (sortLe (fun a b => dateLeB a.date b.date) gs) [] c
    rw [hlen]
    constructor
    · rintro ⟨o, ho, hoc⟩
      rw [if_pos ⟨by simp, o, (mem_sortLe _ gs o).mpr ho, hoc⟩]
    · intro hlen1
      by_cases hex : ∃ x ∈ sortLe (fun a b => dateLeB a.date b.date) gs, x.final_cust_id = c
      · obtain ⟨x, hx, hxc⟩ := hex
        exact ⟨x, (mem_sortLe _ gs x).mp hx, hxc⟩
      · rw [if_neg (fun hh => hex hh.2)] at hlen1
        exact absurd hlen1 (by decide)
  · intro r hr
    rw [first_orders] at hr
    have hmem := mem_dropDupsBy (fun g : OrderRow => g.final_cust_id) _ _ r hr
    refine ⟨(mem_sortLe _ gs r).mp hmem.1, ?_⟩
    intro o ho hoc
    exact min_of_dropDupsBy (fun g : OrderRow => g.final_cust_id)
      (fun a b => dateLeB a.date b.date) (fun x => dateLeB_refl x.date)
      (sortLe (fun a b => dateLeB a.date b.date) gs) []
      (pairwise_sortLe _ (fun x y => dateLeB_total x.date y.date)
        (fun x y z h1 h2 => dateLeB_trans x.date y.date z.date h1 h2) gs)
      r hr o ((mem_sortLe _ gs o).mpr ho) hoc

/-- Witness for C8 on scenario C: customer C1 with orders dated
2024-01-01 and 2024-02-01 gets exactly one output row, the output is
exactly the January order, and the kept row's date precedes the
February order's. -/
theorem C8_first_order_witness :
    ((first_orders [oJan, oFeb]).filter
      (fun r => (r.final_cust_id = Scalar.str "C1" : Bool))).length = 1 ∧
    first_orders [oJan, oFeb] = [oJan] ∧
    dateLeB oJan.date oFeb.date = true := by
  have h := C8_first_order_per_customer [oJan, oFeb]
  refine ⟨(h.1 (Scalar.str "C1")).mp ⟨oJan, by decide, rfl⟩, by decide, ?_⟩
  exact (h.2 oJan (by decide)).2 oFeb (by decide) rfl

end ClaimTheorems

end ProductMix
